import Mathlib

/-
Verification of the ClashOfTheTitans signal generator against its design
specification.  The repository holds two variants of the same program:
the interrupt-driven variant (src/main.c, modelled here with the suffix
Irq in names) and the polling variant (src/unnamed/part_000, suffix Poll).
Machine floats are embedded as exact rationals; the trigonometric
synthesizer formulas are embedded over the reals.
-/

namespace SignalGen

/-- AMPLITUDE_MIN from both variants, millivolts. -/
def AMPLITUDE_MIN : ℚ := 100

/-- AMPLITUDE_MAX from both variants, millivolts. -/
def AMPLITUDE_MAX : ℚ := 2500

/-- FREQUENCY_MIN from both variants, hertz. -/
def FREQUENCY_MIN : ℚ := 1

/-- FREQUENCY_MAX from both variants, hertz. -/
def FREQUENCY_MAX : ℚ := 12000000

/-- DAC_MAX_VALUE from src/main.c (255, the 8-bit code ceiling). -/
def DAC_MAX_VALUE : ℚ := 255

/-- VREF from both variants: the 3.3 V reference rail. -/
def VREF : ℚ := 33 / 10

/-- DEBOUNCE_MS from src/main.c: shared debounce window in milliseconds. -/
def DEBOUNCE_MS : ℕ := 200

/-- DEBOUNCE_DELAY_US from the polling variant: button debounce window
in microseconds. -/
def DEBOUNCE_DELAY_US : ℕ := 10000

/-- The Waveform enum shared by both variants. -/
inductive Waveform
  | sine
  | square
  | sawtooth
  | triangular
deriving DecidableEq, Repr

/-- Numeric index of a waveform, matching the C enum values
SINE = 0, SQUARE = 1, SAWTOOTH = 2, TRIANGULAR = 3. -/
def Waveform.toIdx : Waveform → ℕ
  | .sine => 0
  | .square => 1
  | .sawtooth => 2
  | .triangular => 3

/-- Waveform named by a C enum value; indices are always taken mod 4
before this is applied, matching the cast in the source. -/
def Waveform.ofIdx : ℕ → Waveform
  | 0 => .sine
  | 1 => .square
  | 2 => .sawtooth
  | _ => .triangular

/-- changeWaveform from the polling variant, and the identical update
performed by gpio_callback in src/main.c: the C code computes
(Waveform)((current_waveform + 1) % 4). -/
def changeWaveform (w : Waveform) : Waveform :=
  Waveform.ofIdx ((w.toIdx + 1) % 4)

/-- C4: each qualifying button event advances the waveform exactly one
step in the cyclic order Sine, Square, Sawtooth, Triangular, Sine, and
four consecutive advances return every waveform to itself. -/
theorem waveform_cycle_c4 :
    changeWaveform Waveform.sine = Waveform.square ∧
    changeWaveform Waveform.square = Waveform.sawtooth ∧
    changeWaveform Waveform.sawtooth = Waveform.triangular ∧
    changeWaveform Waveform.triangular = Waveform.sine ∧
    ∀ w : Waveform,
      changeWaveform (changeWaveform (changeWaveform (changeWaveform w))) = w := by
  refine ⟨rfl, rfl, rfl, rfl, ?_⟩
  intro w
  cases w <;> rfl

/-- Value of a decimal digit string, most significant digit first,
as accumulated left to right. -/
def natOfDigits (cs : List Char) : ℕ :=
  cs.foldl (fun a c => 10 * a + (c.toNat - 48)) 0

/-- Model of strtof applied to the entry buffers: the C library parses
the longest leading decimal-number prefix and returns its value (the
buffers built by the entry paths contain only decimal digits, so the
parse is exact and non-negative; an empty buffer parses as 0). -/
def strtofQ (cs : List Char) : ℚ :=
  (natOfDigits (cs.takeWhile Char.isDigit) : ℚ)

/-- fminf(fmaxf(x, lo), hi), the clamp idiom used by the polling
variant commit paths. -/
def clampQ (x lo hi : ℚ) : ℚ :=
  min (max x lo) hi

/-- Mutable state of the interrupt variant (src/main.c): the four signal
parameters together with the numeric-entry session state.  inputBuffer
holds the characters written so far into the 20-byte C buffer (the C
index inputIndex equals its length in every reachable state, since the
buffer is zeroed and the index reset together on every commit). -/
structure MState where
  current_waveform : Waveform
  amplitude : ℚ
  frequency : ℚ
  dc_offset : ℚ
  paramType : Char
  inputBuffer : List Char
deriving DecidableEq, Repr

/-- Initial state of src/main.c: SINE, 1000 mV, 10 Hz, 500 mV, paramType
zero-initialised, empty buffer. -/
def initIrq : MState :=
  { current_waveform := Waveform.sine
    amplitude := 1000
    frequency := 10
    dc_offset := 500
    paramType := Char.ofNat 0
    inputBuffer := [] }

/-- handle_input from src/main.c.  Key D commits the buffer via strtof
into the parameter selected by paramType, with no clamping, then clears
the buffer; keys A/B/C select a parameter; a digit key is appended only
while fewer than sizeof(inputBuffer) - 1 = 19 characters are stored;
every other key is ignored. -/
def handle_input (key : Char) (s : MState) : MState :=
  if key = 'D' then
    let s1 :=
      if s.paramType = 'A' then { s with amplitude := strtofQ s.inputBuffer }
      else if s.paramType = 'B' then { s with frequency := strtofQ s.inputBuffer }
      else if s.paramType = 'C' then { s with dc_offset := strtofQ s.inputBuffer }
      else s
    { s1 with inputBuffer := [] }
  else if key = 'A' ∨ key = 'B' ∨ key = 'C' then
    { s with paramType := key }
  else if key.isDigit then
    if s.inputBuffer.length < 19 then { s with inputBuffer := s.inputBuffer ++ [key] }
    else s
  else s

/-- The waveform-button branch of gpio_callback in src/main.c: advance
the waveform, touch nothing else. -/
def buttonPress (s : MState) : MState :=
  { s with current_waveform := changeWaveform s.current_waveform }

/-- Run handle_input over a whole key sequence. -/
def runIrq (ks : List Char) (s : MState) : MState :=
  ks.foldl (fun t k => handle_input k t) s

/-- The 4x4 keypad character matrix keys, identical in both variants. -/
def keys : List (List Char) :=
  [['1', '2', '3', 'A'], ['4', '5', '6', 'B'], ['7', '8', '9', 'C'], ['*', '0', '#', 'D']]

/-- All sixteen characters the keypad can produce. -/
def keypadChars : List Char :=
  keys.flatten

/-- Digits accumulated by the polling-variant entry loops (readAmplitude,
readFrequency, readDCOffset): keys are consumed until the first D, and a
key is stored exactly when it lies between character 0 and character 9. -/
def pollEntryDigits (ks : List Char) : List Char :=
  (ks.takeWhile (fun k => k != 'D')).filter Char.isDigit

/-- Size of the amplitudeStr / frequencyStr / offsetStr C arrays in the
polling variant: 16 bytes. -/
def pollEntryBufSize : ℕ := 16

/-- Index at which the polling-variant entry loop writes the terminating
NUL after the key sequence ks: one past the last stored digit.  The loop
stores digit number i at index i with no bound check, so every index up
to this one is written. -/
def pollTerminatorIdx (ks : List Char) : ℕ :=
  (pollEntryDigits ks).length

/-- readAmplitude commit from the polling variant: parse the accumulated
digits and clamp into [AMPLITUDE_MIN, AMPLITUDE_MAX]. -/
def readAmplitudeCommit (ks : List Char) : ℚ :=
  clampQ (strtofQ (pollEntryDigits ks)) AMPLITUDE_MIN AMPLITUDE_MAX

/-- readFrequency commit from the polling variant: parse the accumulated
digits and clamp into [FREQUENCY_MIN, FREQUENCY_MAX]. -/
def readFrequencyCommit (ks : List Char) : ℚ :=
  clampQ (strtofQ (pollEntryDigits ks)) FREQUENCY_MIN FREQUENCY_MAX

/-- readDCOffset commit from the polling variant: parse the accumulated
digits and clamp into [AMPLITUDE_MIN / 2, AMPLITUDE_MAX / 2]. -/
def readDCOffsetCommit (ks : List Char) : ℚ :=
  clampQ (strtofQ (pollEntryDigits ks)) (AMPLITUDE_MIN / 2) (AMPLITUDE_MAX / 2)

/-- Default dcOffset of the polling variant:
(AMPLITUDE_MIN + AMPLITUDE_MAX) / 2.0. -/
def pollDcOffsetDefault : ℚ :=
  (AMPLITUDE_MIN + AMPLITUDE_MAX) / 2

/-- Truncation toward zero, the semantics of a C cast from a floating
value to an integer type (defined for the in-range values the claims
evaluate). -/
def cTruncQ (q : ℚ) : ℤ :=
  if 0 ≤ q then ⌊q⌋ else ⌈q⌉

/-- The DAC conversion in generate_waveform (src/main.c):
(uint)((value / VREF) * DAC_MAX_VALUE), with no clamping. -/
def quantizeIrq (value : ℚ) : ℤ :=
  cTruncQ (value / VREF * DAC_MAX_VALUE)

/-- The DAC conversion in the polling-variant main loop:
scaled = (value + 1.0f) * 127.5f, then
(uint8_t)fminf(fmaxf(scaled, 0.0f), 255.0f). -/
def quantizePoll (value : ℚ) : ℤ :=
  cTruncQ (min (max ((value + 1) * (255 / 2)) 0) 255)

/-- C1 (status code_bug): the claim states that confirming with key D
stores clamp(n, min, max).  In src/main.c, selecting amplitude and
entering 5000 then D stores 5000 itself, not clamp(5000, 100, 2500) =
2500 (main.c defines AMPLITUDE_MIN/MAX but never applies them), though
the buffer is indeed cleared; the polling variant readAmplitude does
store the clamped value. -/
theorem commit_clamp_c1 :
    (runIrq ['A', '5', '0', '0', '0', 'D'] initIrq).amplitude = 5000 ∧
    clampQ 5000 AMPLITUDE_MIN AMPLITUDE_MAX = 2500 ∧
    ((5000 : ℚ) ≠ 2500) ∧
    (runIrq ['A', '5', '0', '0', '0', 'D'] initIrq).inputBuffer = [] ∧
    readAmplitudeCommit ['5', '0', '0', '0', 'D'] = 2500 := by
  decide

/-- C2 (status code_bug): the claim states every reachable state keeps
the three scalar parameters in range.  The polling variant initialises
dcOffset to (100 + 2500) / 2 = 1300 mV, above the documented maximum
AMPLITUDE_MAX / 2 = 1250 mV, so already the initial default state
violates the invariant; and in src/main.c the unclamped commit path
reaches amplitude 5000 mV, above AMPLITUDE_MAX. -/
theorem store_invariant_c2 :
    pollDcOffsetDefault = 1300 ∧
    ¬ (pollDcOffsetDefault ≤ AMPLITUDE_MAX / 2) ∧
    (runIrq ['A', '5', '0', '0', '0', 'D'] initIrq).amplitude = 5000 ∧
    ¬ ((runIrq ['A', '5', '0', '0', '0', 'D'] initIrq).amplitude ≤ AMPLITUDE_MAX) := by
  have hd : pollDcOffsetDefault = 1300 := by
    norm_num [pollDcOffsetDefault, AMPLITUDE_MIN, AMPLITUDE_MAX]
  have ha : (runIrq ['A', '5', '0', '0', '0', 'D'] initIrq).amplitude = 5000 := by
    decide
  refine ⟨hd, ?_, ha, ?_⟩
  · rw [hd]
    norm_num [AMPLITUDE_MAX]
  · rw [ha]
    norm_num [AMPLITUDE_MAX]

/-- C3 (status code_bug): the claim states the quantizer always returns
a code in [0, 255], saturating at both ends.  The polling-variant
conversion does saturate into [0, 255] for every input, but the
src/main.c conversion has no clamp: the routine sample value 1500 mV
(default sine amplitude and offset at its crest) scales to code 115909,
far above 255, so the 8-bit write wraps rather than saturates. -/
theorem quantizer_c3 :
    (∀ v : ℚ, 0 ≤ quantizePoll v ∧ quantizePoll v ≤ 255) ∧
    quantizeIrq 1500 = 115909 ∧
    ¬ (quantizeIrq 1500 ≤ 255) := by
  have hirq : quantizeIrq 1500 = 115909 := by
    have harg : (1500 : ℚ) / VREF * DAC_MAX_VALUE = 3825000 / 33 := by
      norm_num [VREF, DAC_MAX_VALUE]
    unfold quantizeIrq cTruncQ
    rw [harg, if_pos (by norm_num : (0 : ℚ) ≤ 3825000 / 33)]
    rw [Int.floor_eq_iff]
    constructor <;> norm_num
  refine ⟨?_, hirq, ?_⟩
  · intro v
    have hlo : (0 : ℚ) ≤ min (max ((v + 1) * (255 / 2)) 0) 255 := by
      have h1 : (0 : ℚ) ≤ max ((v + 1) * (255 / 2)) 0 := le_max_right _ _
      exact le_min h1 (by norm_num)
    have hhi : min (max ((v + 1) * (255 / 2)) 0) 255 ≤ (255 : ℚ) := min_le_right _ _
    have htr : quantizePoll v = ⌊min (max ((v + 1) * (255 / 2)) 0) 255⌋ := by
      unfold quantizePoll cTruncQ
      exact if_pos hlo
    constructor
    · rw [htr]
      exact Int.le_floor.mpr (by exact_mod_cast hlo)
    · rw [htr]
      refine (Int.floor_mono hhi).trans ?_
      norm_num
  · rw [hirq]
    norm_num

noncomputable section

/-- M_PI as defined in src/main.c: 3.141592. -/
def M_PI_irq : ℝ := 3.141592

/-- M_PI as defined in the polling variant: 3.14159265358979323846. -/
def M_PI_poll : ℝ := 3.14159265358979323846

/-- The SINE case of generate_waveform in src/main.c:
amplitude * (sinf(2 * M_PI * frequency * t) / 2 + 0.5) + dc_offset. -/
def sineIrq (a f t o : ℝ) : ℝ :=
  a * (Real.sin (2 * M_PI_irq * f * t) / 2 + 0.5) + o

/-- The SQUARE case of generate_waveform in src/main.c:
amplitude * (sinf(2 * M_PI * frequency * t) > 0 ? 1 : -1) / 2
+ 0.5 + dc_offset (the 0.5 is added to the whole value, not scaled by
amplitude, and the sign test is strict). -/
def squareIrq (a f t o : ℝ) : ℝ :=
  a * (if 0 < Real.sin (2 * M_PI_irq * f * t) then (1 : ℝ) else -1) / 2 + 0.5 + o

/-- The SINE case of the polling-variant main loop, in volts:
(amplitude * 0.001 * sinf(2 * M_PI * frequency * t)) + dcOffset * 0.001,
with t the elapsed time in seconds. -/
def sinePoll (a f t o : ℝ) : ℝ :=
  a * 0.001 * Real.sin (2 * M_PI_poll * f * t) + o * 0.001

/-- The SQUARE case of the polling-variant main loop, in volts: full
amplitude above or below the offset, sign following a non-strict test
of sinf(2 * M_PI * frequency * t). -/
def squarePoll (a f t o : ℝ) : ℝ :=
  if 0 ≤ Real.sin (2 * M_PI_poll * f * t) then a * 0.001 + o * 0.001
  else -(a * 0.001) + o * 0.001

/-- The Sine sample as the specification words it:
amplitude * sin(2 pi f t) / 2 + dc_offset. -/
def specSineSample (a f t o : ℝ) : ℝ :=
  a * Real.sin (2 * Real.pi * f * t) / 2 + o

/-- The Square sample as the specification words it: +amplitude/2 +
dc_offset when sin(2 pi f t) is non-negative, -amplitude/2 + dc_offset
otherwise. -/
def specSquareSample (a f t o : ℝ) : ℝ :=
  (if 0 ≤ Real.sin (2 * Real.pi * f * t) then a / 2 else -(a / 2)) + o

end

/-- C5 counterexample: at amplitude 1000, frequency 10, offset 500 and
t = 0 the src/main.c sine sample is 1000, while the claimed formula
amplitude * sin(2 pi f t) / 2 + dc_offset gives 500: the code adds an
extra amplitude/2 term. -/
theorem sine_formula_c5_counterexample :
    sineIrq 1000 10 0 500 = 1000 ∧
    specSineSample 1000 10 0 500 = 500 ∧
    ((1000 : ℝ) ≠ 500) := by
  refine ⟨?_, ?_, by norm_num⟩
  · unfold sineIrq
    rw [mul_zero, Real.sin_zero]
    norm_num
  · unfold specSineSample
    rw [mul_zero, Real.sin_zero]
    norm_num

/-- C5 amended (status corrected): the interrupt-variant sine sample
equals amplitude * sin(2 M_PI f t) / 2 + amplitude / 2 + dc_offset
(the claimed formula plus an extra additive amplitude/2), and the
polling-variant sine sample is the full-swing
0.001 * amplitude * sin(2 M_PI f t) + 0.001 * dc_offset volts, with no
division by 2. -/
theorem sine_formula_c5 :
    ∀ a f t o : ℝ,
      sineIrq a f t o = a * Real.sin (2 * M_PI_irq * f * t) / 2 + a / 2 + o ∧
      sinePoll a f t o = 0.001 * (a * Real.sin (2 * M_PI_poll * f * t)) + 0.001 * o := by
  intro a f t o
  constructor
  · unfold sineIrq
    ring
  · unfold sinePoll
    ring

/-- C6 counterexample: at amplitude 1000, frequency 10, offset 500 and
t = 0 the reference phase sin(0) = 0 is non-negative, so the claim
requires +amplitude/2 + dc_offset = 1000; src/main.c takes the negative
branch of its strict sign test and adds an unscaled 0.5, giving 0.5,
and the polling variant gives full swing 1.5 V. -/
theorem square_formula_c6_counterexample :
    squareIrq 1000 10 0 500 = 1 / 2 ∧
    specSquareSample 1000 10 0 500 = 1000 ∧
    squarePoll 1000 10 0 500 = 3 / 2 ∧
    ((1 : ℝ) / 2 ≠ 1000) := by
  have hirq : Real.sin (2 * M_PI_irq * 10 * 0) = 0 := by
    rw [mul_zero, Real.sin_zero]
  have hpoll : Real.sin (2 * M_PI_poll * 10 * 0) = 0 := by
    rw [mul_zero, Real.sin_zero]
  have hpi : Real.sin (2 * Real.pi * 10 * 0) = 0 := by
    rw [mul_zero, Real.sin_zero]
  refine ⟨?_, ?_, ?_, by norm_num⟩
  · unfold squareIrq
    rw [hirq, if_neg (by norm_num)]
    norm_num
  · unfold specSquareSample
    rw [hpi, if_pos (by norm_num)]
    norm_num
  · unfold squarePoll
    rw [hpoll, if_pos (by norm_num)]
    norm_num

/-- C6 amended (status corrected): the interrupt-variant square sample
is amplitude * s / 2 + 0.5 + dc_offset where s is +1 exactly when
sin(2 M_PI f t) is strictly positive (so at t = 0 it is
-amplitude/2 + 0.5 + dc_offset, not +amplitude/2 + dc_offset), and the
polling-variant square sample swings by the full amplitude in volts:
at t = 0 it is 0.001 * amplitude + 0.001 * dc_offset. -/
theorem square_formula_c6 :
    (∀ a f o : ℝ,
      squareIrq a f 0 o = -(a / 2) + 0.5 + o ∧
      squarePoll a f 0 o = 0.001 * a + 0.001 * o) ∧
    (∀ a f t o : ℝ, 0 < Real.sin (2 * M_PI_irq * f * t) →
      squareIrq a f t o = a / 2 + 0.5 + o) := by
  constructor
  · intro a f o
    have hirq : Real.sin (2 * M_PI_irq * f * 0) = 0 := by
      rw [mul_zero, Real.sin_zero]
    have hpoll : Real.sin (2 * M_PI_poll * f * 0) = 0 := by
      rw [mul_zero, Real.sin_zero]
    constructor
    · unfold squareIrq
      rw [hirq, if_neg (by norm_num)]
      ring
    · unfold squarePoll
      rw [hpoll, if_pos (by norm_num)]
      ring
  · intro a f t o h
    unfold squareIrq
    rw [if_pos h]
    ring

/-- Witness for the hypothesis of square_formula_c6: at amplitude 2,
frequency 1, t = 1/4 the interrupt-variant phase argument is 1.570796,
whose sine is strictly positive, and the sample is +amplitude/2 + 0.5. -/
theorem square_formula_c6_witness :
    squareIrq 2 1 (1 / 4) 0 = 2 / 2 + 0.5 + 0 := by
  have harg : 2 * M_PI_irq * 1 * (1 / 4) = 1.570796 := by
    unfold M_PI_irq
    norm_num
  have hs : 0 < Real.sin (2 * M_PI_irq * 1 * (1 / 4)) := by
    rw [harg]
    exact Real.sin_pos_of_pos_of_lt_pi (by norm_num)
      (lt_trans (by norm_num) Real.pi_gt_d6)
  exact (square_formula_c6.2) 2 1 (1 / 4) 0 hs

/-- The two logical input sources feeding gpio_callback in src/main.c. -/
inductive Source
  | button
  | keypad
deriving DecidableEq, Repr

/-- The debounce logic of gpio_callback in src/main.c applied to a trace
of timestamped events (milliseconds since boot, non-decreasing): one
static last_interrupt_time is shared by the button and the keypad, an
event is accepted when current_time - last_interrupt_time exceeds
DEBOUNCE_MS, and acceptance updates the shared timestamp.  Returns the
accepted events. -/
def irqAcceptedFrom : List (Source × ℕ) → ℕ → List (Source × ℕ)
  | [], _ => []
  | e :: es, last =>
    if DEBOUNCE_MS < e.2 - last then e :: irqAcceptedFrom es e.2
    else irqAcceptedFrom es last

/-- Accepted events of a trace starting from the boot value
last_interrupt_time = 0. -/
def irqAcceptedEvents (es : List (Source × ℕ)) : List (Source × ℕ) :=
  irqAcceptedFrom es 0

/-- C7 counterexample: in src/main.c an accepted button event at 300 ms
suppresses a keypad event at 400 ms (inside the 200 ms window), while
the same keypad event alone is accepted — the gates are not
independent per source. -/
theorem debounce_independent_c7_counterexample :
    irqAcceptedEvents [(Source.button, 300), (Source.keypad, 400)] =
      [(Source.button, 300)] ∧
    irqAcceptedEvents [(Source.keypad, 400)] = [(Source.keypad, 400)] := by
  decide

/-- C7 amended (status corrected): the interrupt variant runs one shared
debounce gate over both sources, so whenever a first event is accepted,
any event — in particular one from the other source — arriving within
DEBOUNCE_MS of it is suppressed.  (The polling variant keeps the button
gate lastButtonPressTime separate from the keypad scan.) -/
theorem debounce_shared_gate_c7 :
    ∀ (s1 s2 : Source) (t1 t2 : ℕ),
      DEBOUNCE_MS < t1 → t1 ≤ t2 → t2 - t1 ≤ DEBOUNCE_MS →
      irqAcceptedEvents [(s1, t1), (s2, t2)] = [(s1, t1)] := by
  intro s1 s2 t1 t2 h1 _ h3
  unfold irqAcceptedEvents irqAcceptedFrom
  rw [if_pos (by simpa using h1)]
  unfold irqAcceptedFrom
  rw [if_neg (by simpa using Nat.not_lt.mpr h3)]
  rfl

/-- Witness for debounce_shared_gate_c7 at the concrete trace of the
counterexample: button at 300 ms, keypad at 400 ms. -/
theorem debounce_shared_gate_c7_witness :
    irqAcceptedEvents [(Source.button, 300), (Source.keypad, 400)] =
      [(Source.button, 300)] :=
  debounce_shared_gate_c7 Source.button Source.keypad 300 400
    (by decide) (by decide) (by decide)

/-- Helper: one handle_input step keeps the buffer within 19
characters. -/
theorem handle_input_buffer_le (k : Char) (s : MState)
    (h : s.inputBuffer.length ≤ 19) :
    (handle_input k s).inputBuffer.length ≤ 19 := by
  unfold handle_input
  split_ifs <;> simp_all [List.length_append]
  omega

/-- Helper: the buffer bound is preserved by any key sequence. -/
theorem runIrq_buffer_le (ks : List Char) (s : MState)
    (h : s.inputBuffer.length ≤ 19) :
    (runIrq ks s).inputBuffer.length ≤ 19 := by
  induction ks generalizing s with
  | nil => exact h
  | cons k ks ih => exact ih (handle_input k s) (handle_input_buffer_le k s h)

/-- A state of src/main.c whose entry buffer is at its 19-character
capacity. -/
def fullBufState : MState :=
  { initIrq with paramType := 'A', inputBuffer := List.replicate 19 '1' }

/-- C8 (status code_bug): in src/main.c the claim holds — the buffer
never exceeds 19 characters from any key sequence, and a digit key
arriving at capacity leaves the state entirely unchanged — but in the
polling variant the 16-byte entry buffers have no bound check: after
sixteen digit keys the terminating NUL is written at index 16 of a
16-byte array, an out-of-bounds write (and every further digit also
writes out of bounds). -/
theorem buffer_bound_c8 :
    (∀ ks : List Char, (runIrq ks initIrq).inputBuffer.length ≤ 19) ∧
    handle_input '7' fullBufState = fullBufState ∧
    pollTerminatorIdx (List.replicate 16 '5' ++ ['D']) = 16 ∧
    ¬ (pollTerminatorIdx (List.replicate 16 '5' ++ ['D']) < pollEntryBufSize) := by
  refine ⟨?_, by decide, by decide, by decide⟩
  intro ks
  exact runIrq_buffer_le ks initIrq (by decide)

/-- Helper: one handle_input step keeps the buffer all-digits. -/
theorem handle_input_digits (k : Char) (s : MState)
    (h : ∀ c ∈ s.inputBuffer, c.isDigit = true) :
    ∀ c ∈ (handle_input k s).inputBuffer, c.isDigit = true := by
  unfold handle_input
  split_ifs <;> simp_all
  rintro c (hc | rfl)
  · exact h c hc
  · assumption

/-- Helper: the all-digits buffer invariant is preserved by any key
sequence. -/
theorem runIrq_digits (ks : List Char) (s : MState)
    (h : ∀ c ∈ s.inputBuffer, c.isDigit = true) :
    ∀ c ∈ (runIrq ks s).inputBuffer, c.isDigit = true := by
  induction ks generalizing s with
  | nil => exact h
  | cons k ks ih => exact ih (handle_input k s) (handle_input_digits k s h)

/-- C9 (status confirmed): from any key sequence whatever, the
src/main.c entry buffer holds only the digit characters 0 to 9, so the
value strtof parses from it is exactly the natural number the digit
string denotes (in particular non-negative and integral); the
polling-variant entry loops likewise accumulate only digits, and the
keypad alphabet contains neither a decimal point nor a minus sign. -/
theorem digit_only_entry_c9 :
    (∀ ks : List Char, ∀ c ∈ (runIrq ks initIrq).inputBuffer, c.isDigit = true) ∧
    (∀ ks : List Char,
      strtofQ ((runIrq ks initIrq).inputBuffer) =
        (natOfDigits ((runIrq ks initIrq).inputBuffer) : ℚ) ∧
      0 ≤ strtofQ ((runIrq ks initIrq).inputBuffer)) ∧
    (∀ ks : List Char, ∀ c ∈ pollEntryDigits ks, c.isDigit = true) ∧
    ('.' ∉ keypadChars ∧ '-' ∉ keypadChars) := by
  have hdig : ∀ ks : List Char, ∀ c ∈ (runIrq ks initIrq).inputBuffer, c.isDigit = true :=
    fun ks => runIrq_digits ks initIrq (by simp [initIrq])
  refine ⟨hdig, ?_, ?_, by decide, by decide⟩
  · intro ks
    have htw : ((runIrq ks initIrq).inputBuffer).takeWhile Char.isDigit =
        (runIrq ks initIrq).inputBuffer :=
      List.takeWhile_eq_self_iff.mpr (hdig ks)
    constructor
    · unfold strtofQ
      rw [htw]
    · unfold strtofQ
      exact_mod_cast Nat.cast_nonneg _
  · intro ks c hc
    exact List.of_mem_filter hc

/-- Witness for digit_only_entry_c9 at the concrete key sequence A then
5: the single buffered character 5 is a digit and the parsed value is
non-negative. -/
theorem digit_only_entry_c9_witness :
    ('5').isDigit = true ∧ 0 ≤ strtofQ ((runIrq ['A', '5'] initIrq).inputBuffer) :=
  ⟨digit_only_entry_c9.1 ['A', '5'] '5' (by decide),
    (digit_only_entry_c9.2.1 ['A', '5']).2⟩

/-- The shared parameter state of the polling variant. -/
structure PState where
  currentWaveform : Waveform
  amplitude : ℚ
  frequency : ℚ
  dcOffset : ℚ
deriving DecidableEq, Repr

/-- changeWaveform as a transformation of the polling-variant shared
state: only currentWaveform is assigned. -/
def pollChangeWaveform (s : PState) : PState :=
  { s with currentWaveform := changeWaveform s.currentWaveform }

/-- C10 (status confirmed): each mutating operation touches only its own
field.  The button path of src/main.c leaves the three scalar
parameters unchanged; a commit with key D never changes the waveform;
committing to amplitude, frequency or dc_offset (paramType A, B or C)
leaves the other two scalars unchanged; and the polling-variant
changeWaveform leaves all three scalars unchanged. -/
theorem frame_c10 :
    (∀ s : MState, (buttonPress s).amplitude = s.amplitude ∧
      (buttonPress s).frequency = s.frequency ∧
      (buttonPress s).dc_offset = s.dc_offset) ∧
    (∀ s : MState, (handle_input 'D' s).current_waveform = s.current_waveform) ∧
    (∀ s : MState,
      (handle_input 'D' { s with paramType := 'A' }).frequency = s.frequency ∧
      (handle_input 'D' { s with paramType := 'A' }).dc_offset = s.dc_offset) ∧
    (∀ s : MState,
      (handle_input 'D' { s with paramType := 'B' }).amplitude = s.amplitude ∧
      (handle_input 'D' { s with paramType := 'B' }).dc_offset = s.dc_offset) ∧
    (∀ s : MState,
      (handle_input 'D' { s with paramType := 'C' }).amplitude = s.amplitude ∧
      (handle_input 'D' { s with paramType := 'C' }).frequency = s.frequency) ∧
    (∀ s : PState, (pollChangeWaveform s).amplitude = s.amplitude ∧
      (pollChangeWaveform s).frequency = s.frequency ∧
      (pollChangeWaveform s).dcOffset = s.dcOffset) := by
  refine ⟨fun s => ⟨rfl, rfl, rfl⟩, ?_, ?_, ?_, ?_, fun s => ⟨rfl, rfl, rfl⟩⟩
  · intro s
    unfold handle_input
    split_ifs <;> rfl
  · intro s
    unfold handle_input
    split_ifs <;> simp_all
  · intro s
    unfold handle_input
    split_ifs <;> simp_all
  · intro s
    unfold handle_input
    split_ifs <;> simp_all

end SignalGen
